import Mathlib

/-!
Shallow embedding of `src/jax_shim/numpy.py`: a NumPy compatibility shim that
augments the baseline array type with a JaX-style `.at[key].set/add(value)`
indexed-update idiom.

Object identity matters to the spec (the `owner` back-reference must be the
array *itself*), so the embedding uses an explicit store: arrays and
`_AtConstructor` objects live in lists indexed by numeric identities, and
every operation threads a `State`.  Array contents are modelled as flat
`List Int` (rank-1, integer dtype); keys are modelled by the integer index
case of NumPy basic indexing, with an opaque `other` case standing for any
key object the modelled fragment of the baseline library rejects.
-/

namespace JaxShim

/-- A (possibly invalid) index key, retained verbatim as in the source:
`_AtOp` stores whatever object was passed to `_AtConstructor.__getitem__`. -/
inductive Key where
  | idx : Int → Key
  | other : Nat → Key
deriving DecidableEq, Repr

/-- An array object in the store: its buffer contents, and its `at` attribute
(`none` models a plain baseline `np.ndarray`, which has no `at` attribute;
`some c` is a reference to the `_AtConstructor` object with identity `c`). -/
structure Obj where
  data : List Int
  at_ : Option Nat
deriving DecidableEq, Repr

/-- The `_AtConstructor` class: holds a single back-reference `owner`
(an array identity), set once in `__init__`. -/
structure _AtConstructor where
  owner : Nat
deriving DecidableEq, Repr

/-- The `_AtOp` class: holds `owner` and the verbatim `key`, set in
`__init__`; carries no other state. -/
structure _AtOp where
  owner : Nat
  key : Key
deriving DecidableEq, Repr

/-- The object store: array objects and `_AtConstructor` objects, each
addressed by its position (its identity). -/
structure State where
  objs : List Obj
  ctors : List _AtConstructor
deriving DecidableEq, Repr

/-- Allocate a fresh array object; its identity is the store's next index. -/
def allocObj (s : State) (o : Obj) : Nat × State :=
  (s.objs.length, ⟨s.objs ++ [o], s.ctors⟩)

/-- Allocate a fresh `_AtConstructor` object (this is `_AtConstructor.__init__`:
the new constructor's `owner` field is exactly the argument passed). -/
def allocCtor (s : State) (c : _AtConstructor) : Nat × State :=
  (s.ctors.length, ⟨s.objs, s.ctors ++ [c]⟩)

/-- Attribute write `x.at = c` on the array object with identity `i`. -/
def State.setAt (s : State) (i : Nat) (c : Option Nat) : State :=
  match s.objs[i]? with
  | none => s
  | some o => ⟨s.objs.set i { o with at_ := c }, s.ctors⟩

/-- Buffer write on the array object with identity `i`. -/
def State.setData (s : State) (i : Nat) (d : List Int) : State :=
  match s.objs[i]? with
  | none => s
  | some o => ⟨s.objs.set i { o with data := d }, s.ctors⟩

/-- `getattr(x, "at", None)` for the array object with identity `i`. -/
def State.atOf (s : State) (i : Nat) : Option Nat :=
  (s.objs[i]?).bind (·.at_)

/-- NumPy integer-index resolution for a length-`n` axis: `0 ≤ i < n` is
taken as is, `-n ≤ i < 0` wraps to `i + n`, anything else is an
`IndexError` (`none`). -/
def resolveIdx (n : Nat) (i : Int) : Option Nat :=
  if 0 ≤ i ∧ i < (n : Int) then some i.toNat
  else if -(n : Int) ≤ i ∧ i < 0 then some (i + n).toNat
  else none

/-- Baseline indexed read `data[key]`: `none` models the baseline library
raising (out-of-bounds index, or an unsupported key object). -/
def npGetItem (data : List Int) : Key → Option Int
  | .idx i => (resolveIdx data.length i).bind (fun j => data[j]?)
  | .other _ => none

/-- Baseline in-place indexed assignment `data[key] = v`: `none` models the
baseline library raising; otherwise the updated buffer. -/
def npSetItem (data : List Int) (k : Key) (v : Int) : Option (List Int) :=
  match k with
  | .idx i => (resolveIdx data.length i).map (fun j => data.set j v)
  | .other _ => none

/-- `np.asarray(input_array)`: coerce the input data to the baseline array
representation (in the model, the input data is already a flat buffer). -/
def np_asarray (d : List Int) : List Int := d

/-- `array.__array_finalize__(self, obj)`: the derivation hook.  If `obj` is
`None`, do nothing.  Otherwise read `getattr(obj, "at", None)`: when absent,
construct `_AtConstructor(obj)` — in the source the owner passed is `obj`,
the *source* object — and store it as `self.at`; when present, reuse the very
same constructor object as `self.at`. -/
def array_finalize (self : Nat) (obj : Option Nat) (s : State) : State :=
  match obj with
  | none => s
  | some o =>
    match s.atOf o with
    | none =>
      let (c, s1) := allocCtor s ⟨o⟩
      s1.setAt self (some c)
    | some c => s.setAt self (some c)

/-- The baseline library's new-from-template machinery (views, slices, ufunc
results): allocate a new instance whose buffer is derived from the source's
by `f`, with no `at` attribute yet, then invoke `__array_finalize__` on it
with the source object. -/
def derive (src : Nat) (f : List Int → List Int) (s : State) : Nat × State :=
  let d := ((s.objs[src]?).map (·.data)).getD []
  let (n, s1) := allocObj s ⟨f d, none⟩
  (n, array_finalize n (some src) s1)

/-- The first two steps of `array.__new__`:
`obj = np.asarray(input_array).view(cls)`.  The plain baseline array is
materialized first; the `.view(cls)` call is a derivation from it (same
buffer contents), which triggers `__array_finalize__`.  Returns the plain
array's identity, the view's identity, and the resulting state. -/
def array_new_view_step (input_array : List Int) (s : State) : Nat × Nat × State :=
  let (p, s1) := allocObj s ⟨np_asarray input_array, none⟩
  let (o, s2) := derive p id s1
  (p, o, s2)

/-- `array.__new__(cls, input_array)`: the view step above, then
`obj.at = _AtConstructor(obj)` — the attribute is unconditionally overwritten
with a fresh constructor owned by the new augmented object — then
`return obj`. -/
def array_new (input_array : List Int) (s : State) : Nat × State :=
  let (_, o, s2) := array_new_view_step input_array s
  let (c, s3) := allocCtor s2 ⟨o⟩
  (o, s3.setAt o (some c))

/-- `_AtConstructor.__getitem__(self, key)`: `return _AtOp(self.owner, key)`.
A pure factory: no store access, no validation of `key`. -/
def _AtConstructor.getitem (self : _AtConstructor) (key : Key) : _AtOp :=
  ⟨self.owner, key⟩

/-- `_AtOp.set(self, value)`: `self.owner[self.key] = value`.  Mutates the
owner in place; returns no value (only the new state).  `none` models the
baseline library's own indexing error escaping. -/
def _AtOp.set (self : _AtOp) (value : Int) (s : State) : Option State :=
  match s.objs[self.owner]? with
  | none => none
  | some o =>
    match npSetItem o.data self.key value with
    | none => none
    | some d => some (s.setData self.owner d)

/-- `_AtOp.add(self, value)`: `self.owner[self.key] += value` — read the
current value at `key`, add `value`, write the result back in place. -/
def _AtOp.add (self : _AtOp) (value : Int) (s : State) : Option State :=
  match s.objs[self.owner]? with
  | none => none
  | some o =>
    match npGetItem o.data self.key with
    | none => none
    | some cur =>
      match npSetItem o.data self.key (cur + value) with
      | none => none
      | some d => some (s.setData self.owner d)

/-- `A.at[k].set v` convenience: look up `A`'s `at` constructor and apply. -/
def atSet (s : State) (a : Nat) (k : Key) (v : Int) : Option State :=
  (s.atOf a).bind fun c =>
    (s.ctors[c]?).bind fun ctor =>
      (ctor.getitem k).set v s

/-- Module `__getattr__(attr)`: `return getattr(np, attr)` — forward the
lookup to the baseline library's namespace, letting its `AttributeError`
escape untranslated.  Namespaces are modelled as partial maps from names to
object identities. -/
def jax_shim_getattr (np_ns : String → Option Nat) (attr : String) :
    Except String Nat :=
  match np_ns attr with
  | some v => Except.ok v
  | none => Except.error ("AttributeError: module numpy has no attribute " ++ attr)

/-- Python module attribute access: the module's own dict is consulted first;
only a miss invokes the module-level `__getattr__`. -/
def module_getattr (localDict : String → Option Nat) (np_ns : String → Option Nat)
    (attr : String) : Except String Nat :=
  match localDict attr with
  | some v => Except.ok v
  | none => jax_shim_getattr np_ns attr

/-- `A.at[k].add v` convenience: look up `A`'s `at` constructor and apply. -/
def atAdd (s : State) (a : Nat) (k : Key) (v : Int) : Option State :=
  (s.atOf a).bind fun c =>
    (s.ctors[c]?).bind fun ctor =>
      (ctor.getitem k).add v s

/-- The `owner` of the `_AtConstructor` referenced by array `a`'s `at`
attribute, when both exist. -/
def State.atOwner (s : State) (a : Nat) : Option Nat :=
  (s.atOf a).bind fun c => (s.ctors[c]?).map (·.owner)

/-- Modelled from the spec words (§8): "the baseline array built from `d`",
whose elements and shape the wrapped object must reproduce. -/
def baseline_array_of (d : List Int) : List Int := d

/-- The empty store. -/
def State.empty : State := ⟨[], []⟩

/-- Concrete scenario: a fresh augmented array built from `[1, 2, 3]`. -/
def exA : Nat × State := array_new [1, 2, 3] State.empty

/-- Concrete scenario: a slice (first two entries) derived from `exA`. -/
def exB : Nat × State := derive exA.1 (fun d => d.take 2) exA.2

/-- Concrete scenario: an offset slice (the model of `B = A[1:]`) derived
from `exA`: its buffer is `[2, 3]` but its `at` constructor is the reused one
owned by the source array `exA`. -/
def exD : Nat × State := derive exA.1 (fun d => d.drop 1) exA.2

/-- Concrete scenario: a plain baseline array `[1, 2, 3]` (no `at`). -/
def exPlain : Nat × State := allocObj State.empty ⟨[1, 2, 3], none⟩

/-- Concrete scenario: viewing `exPlain` as the augmented type — a derivation
whose source lacks an `at` attribute, exercising the hook's fresh branch. -/
def exView : Nat × State := derive exPlain.1 id exPlain.2

/-- Concrete scenario: a fresh augmented array built from `[1, 2, 3, 4]`. -/
def exC : Nat × State := array_new [1, 2, 3, 4] State.empty

/-- Concrete scenario: the store after `exC.at[1].set(10)`. -/
def exC_set : State := exC.2.setData exC.1 [1, 10, 3, 4]

/-- Concrete scenario: a module dict defining only the local name `array`. -/
def exLocal : String → Option Nat := fun a => if a = "array" then some 100 else none

/-- Concrete scenario: a baseline namespace exposing only the name `sin`. -/
def exNp : String → Option Nat := fun a => if a = "sin" then some 7 else none

/-! ### List store helper lemmas -/

lemma set_concat_length (l : List α) (a b : α) :
    (l ++ [a]).set l.length b = l ++ [b] := by
  simp [List.set_append]

lemma set_concat_pair_right (l : List α) (a b b' : α) :
    (l ++ [a, b]).set (l.length + 1) b' = l ++ [a, b'] := by
  simp [List.set_append]

lemma getElem?_append_lt (l l₂ : List α) (i : Nat) (h : i < l.length) :
    (l ++ l₂)[i]? = l[i]? := by
  rw [List.getElem?_append_left h]

lemma getElem?_concat_pair_left (l : List α) (a b : α) :
    (l ++ [a, b])[l.length]? = some a := by
  rw [List.getElem?_append_right (Nat.le_refl _)]
  simp

lemma getElem?_concat_pair_right (l : List α) (a b : α) :
    (l ++ [a, b])[l.length + 1]? = some b := by
  rw [List.getElem?_append_right (Nat.le_succ_of_le (Nat.le_refl _))]
  simp

/-! ### Index resolution lemmas -/

lemma resolveIdx_lt {n : Nat} {i : Int} {j : Nat} (h : resolveIdx n i = some j) :
    j < n := by
  unfold resolveIdx at h
  split_ifs at h with h1 h2
  · simp only [Option.some.injEq] at h
    omega
  · simp only [Option.some.injEq] at h
    omega

lemma npSetItem_length {d d' : List Int} {k : Key} {v : Int}
    (h : npSetItem d k v = some d') : d'.length = d.length := by
  cases k with
  | idx i =>
    simp only [npSetItem] at h
    cases hr : resolveIdx d.length i with
    | none => rw [hr] at h; simp at h
    | some j =>
      rw [hr] at h
      simp only [Option.map_some', Option.some.injEq] at h
      rw [← h, List.length_set]
  | other m => simp [npSetItem] at h

lemma npGetItem_npSetItem {d d' : List Int} {k : Key} {v : Int}
    (h : npSetItem d k v = some d') : npGetItem d' k = some v := by
  cases k with
  | idx i =>
    simp only [npSetItem] at h
    cases hr : resolveIdx d.length i with
    | none => rw [hr] at h; simp at h
    | some j =>
      rw [hr] at h
      simp only [Option.map_some', Option.some.injEq] at h
      have hj := resolveIdx_lt hr
      subst h
      simp [npGetItem, List.length_set, hr, List.getElem?_set_self hj]
  | other m => simp [npSetItem] at h

lemma npSetItem_isSome_of_getItem {d : List Int} {k : Key} {cur : Int}
    (h : npGetItem d k = some cur) (v : Int) :
    ∃ d', npSetItem d k v = some d' := by
  cases k with
  | idx i =>
    simp only [npGetItem] at h
    cases hr : resolveIdx d.length i with
    | none => rw [hr] at h; simp at h
    | some j => exact ⟨d.set j v, by simp [npSetItem, hr]⟩
  | other m => simp [npGetItem] at h

lemma npGetItem_none_of_npSetItem_none {d : List Int} {k : Key} {v : Int}
    (h : npSetItem d k v = none) : npGetItem d k = none := by
  cases k with
  | idx i =>
    simp only [npSetItem] at h
    cases hr : resolveIdx d.length i with
    | none => simp [npGetItem, hr]
    | some j => rw [hr] at h; simp at h
  | other m => simp [npGetItem]

/-! ### Symbolic execution of the derivation machinery -/

lemma derive_spec_none (src : Nat) (f : List Int → List Int) (s : State)
    (hsrc : src < s.objs.length) (h : s.atOf src = none) :
    derive src f s =
      (s.objs.length,
       ⟨s.objs ++ [⟨f (((s.objs[src]?).map (·.data)).getD []), some s.ctors.length⟩],
        s.ctors ++ [⟨src⟩]⟩) := by
  simp only [derive, allocObj, array_finalize, allocCtor, State.setAt, State.atOf] at *
  rw [getElem?_append_lt _ _ _ hsrc, h]
  simp only [List.getElem?_concat_length, set_concat_length]

lemma derive_spec_some (src : Nat) (f : List Int → List Int) (s : State) (c : Nat)
    (hsrc : src < s.objs.length) (h : s.atOf src = some c) :
    derive src f s =
      (s.objs.length,
       ⟨s.objs ++ [⟨f (((s.objs[src]?).map (·.data)).getD []), some c⟩],
        s.ctors⟩) := by
  simp only [derive, allocObj, array_finalize, allocCtor, State.setAt, State.atOf] at *
  rw [getElem?_append_lt _ _ _ hsrc, h]
  simp only [List.getElem?_concat_length, set_concat_length]

lemma array_new_view_step_spec (d : List Int) (s : State) :
    array_new_view_step d s =
      (s.objs.length, s.objs.length + 1,
       ⟨s.objs ++ [⟨d, none⟩, ⟨d, some s.ctors.length⟩],
        s.ctors ++ [⟨s.objs.length⟩]⟩) := by
  simp only [array_new_view_step, allocObj, np_asarray]
  rw [derive_spec_none _ _ _ (by simp) (by simp [State.atOf, List.getElem?_concat_length])]
  simp [List.getElem?_concat_length]

lemma array_new_spec (d : List Int) (s : State) :
    array_new d s =
      (s.objs.length + 1,
       ⟨s.objs ++ [⟨d, none⟩, ⟨d, some (s.ctors.length + 1)⟩],
        s.ctors ++ [⟨s.objs.length⟩, ⟨s.objs.length + 1⟩]⟩) := by
  simp only [array_new, array_new_view_step_spec, allocCtor, State.setAt]
  rw [getElem?_concat_pair_right]
  simp [set_concat_pair_right, List.append_assoc]

lemma atOf_setAt_self (s : State) (i : Nat) (c : Option Nat) (hi : i < s.objs.length) :
    (s.setAt i c).atOf i = c := by
  cases ho : s.objs[i]? with
  | none => rw [List.getElem?_eq_none_iff] at ho; omega
  | some o =>
    simp [State.setAt, State.atOf, ho, List.getElem?_set_self (by simpa using hi)]

lemma atOf_array_finalize_self (self : Nat) (o : Nat) (s : State)
    (hself : self < s.objs.length) :
    ((array_finalize self (some o) s).atOf self).isSome := by
  simp only [array_finalize]
  cases h : s.atOf o with
  | none =>
    simp only [h, allocCtor]
    rw [atOf_setAt_self _ _ _ (by simpa using hself)]
    simp
  | some c =>
    simp only [h]
    rw [atOf_setAt_self _ _ _ hself]
    simp

lemma npSetItem_idx_eq {d d' : List Int} {i : Int} {v : Int}
    (h : npSetItem d (Key.idx i) v = some d') :
    ∃ jr, resolveIdx d.length i = some jr ∧ d' = d.set jr v := by
  simp only [npSetItem] at h
  cases hr : resolveIdx d.length i with
  | none => rw [hr] at h; simp at h
  | some jr =>
    rw [hr] at h
    simp only [Option.map_some', Option.some.injEq] at h
    exact ⟨jr, rfl, h.symm⟩

lemma setData_frame (s : State) (a : Nat) (o : Obj) (i : Int) (w : Int) (d' : List Int)
    (ho : s.objs[a]? = some o) (hset : npSetItem o.data (Key.idx i) w = some d') :
    (s.setData a d').ctors = s.ctors ∧
    (∀ b, b ≠ a → (s.setData a d').objs[b]? = s.objs[b]?) ∧
    ((s.setData a d').objs[a]?).map (·.at_) = some o.at_ ∧
    ((s.setData a d').objs[a]?).map (fun o' => o'.data.length) = some o.data.length ∧
    (∀ j : Nat, resolveIdx o.data.length i ≠ some j →
      (((s.setData a d').objs[a]?).bind (fun o' => o'.data[j]?)) = o.data[j]?) := by
  obtain ⟨jr, hjr, hd'⟩ := npSetItem_idx_eq hset
  subst hd'
  have ha : a < s.objs.length := (List.getElem?_eq_some.mp ho).1
  have hlook : (s.setData a (o.data.set jr w)).objs[a]? =
      some { o with data := o.data.set jr w } := by
    simp [State.setData, ho, List.getElem?_set_self (by simpa using ha)]
  refine ⟨by simp [State.setData, ho], ?_, ?_, ?_, ?_⟩
  · intro b hb
    simp [State.setData, ho, List.getElem?_set_ne (Ne.symm hb)]
  · simp [hlook]
  · simp [hlook, List.length_set]
  · intro j hj
    have hne : jr ≠ j := fun hh => hj (hh ▸ hjr)
    simp [hlook, List.getElem?_set_ne hne]

lemma atOwner_of_concat_pair (s : State) (d : List Int) :
    (State.mk (s.objs ++ [⟨d, none⟩, ⟨d, some (s.ctors.length + 1)⟩])
        (s.ctors ++ [⟨s.objs.length⟩, ⟨s.objs.length + 1⟩])).atOwner
      (s.objs.length + 1) = some (s.objs.length + 1) := by
  simp only [State.atOwner, State.atOf]
  rw [getElem?_concat_pair_right]
  simp only [Option.some_bind]
  rw [getElem?_concat_pair_right]
  rfl

/-! ### Claim theorems -/

/-- **C1 (counterexample).** The claim says every Augmented Array instance,
however produced, has an `at` constructor whose owner is the instance itself.
Concretely refuted: `exA` is the augmented array built from `[1, 2, 3]`
(identity 1, self-owned); `exB` is a slice derived from it (identity 2).
The derived instance's `at` is the reused constructor with identity 1, whose
owner is 1 — the source array, not the derived instance 2. -/
theorem C1_counterexample :
    exB.1 = 2 ∧
    exB.2.atOf exB.1 = some 1 ∧
    exB.2.ctors[1]? = some ⟨exA.1⟩ ∧
    exA.1 = 1 := by decide

/-- **C1 (amended).** Every Augmented Array instance has a non-null `at`
attribute; on the fresh-construction path (the module-level `array`
constructor) its owner is the instance itself, while a derivation always
yields a non-null `at` but its owner may be the source object instead. -/
theorem C1_at_invariant_amended :
    (∀ (d : List Int) (s : State),
      (array_new d s).2.atOwner (array_new d s).1 = some (array_new d s).1) ∧
    (∀ (src : Nat) (f : List Int → List Int) (s : State),
      ((derive src f s).2.atOf (derive src f s).1).isSome) := by
  constructor
  · intro d s
    simp only [array_new_spec]
    exact atOwner_of_concat_pair s d
  · intro src f s
    simp only [derive, allocObj]
    exact atOf_array_finalize_self _ _ _ (by simp)

/-- **C2 (code evaluation at the failing input).** The claim (and the spec)
say that when the derivation hook finalizes a new instance from a source
with no `at` attribute, the freshly built constructor is owned by the *new*
instance.  The code instead executes `self.at = _AtConstructor(obj)`, passing
the source: deriving from the plain baseline array `exPlain` (identity 0)
gives a new instance (identity 1) whose fresh constructor's owner is 0 — the
source — not the new instance. -/
theorem C2_fresh_ctor_owned_by_source :
    exView.1 = 1 ∧
    exView.2.atOf exView.1 = some 0 ∧
    exView.2.ctors[0]? = some ⟨exPlain.1⟩ ∧
    exPlain.1 = 0 := by decide

/-- **C3.** When the derivation hook finalizes a new instance from a source
that already has an `at` attribute, the existing constructor object is reused
as-is: the derived instance's `at` is the very same constructor (no new
constructor is allocated — the constructor store is unchanged), and its
owner still references the source array, which is distinct from the derived
instance. -/
theorem C3_derive_reuses_ctor (s : State) (src : Nat) (f : List Int → List Int)
    (c : Nat) (h : s.atOf src = some c) (hc : s.ctors[c]? = some ⟨src⟩) :
    (derive src f s).2.atOf (derive src f s).1 = some c ∧
    (derive src f s).2.ctors = s.ctors ∧
    (derive src f s).2.ctors[c]? = some ⟨src⟩ ∧
    src ≠ (derive src f s).1 := by
  have hsrc : src < s.objs.length := by
    cases ho : s.objs[src]? with
    | none => simp [State.atOf, ho] at h
    | some o => exact (List.getElem?_eq_some.mp ho).1
  rw [derive_spec_some src f s c hsrc h]
  refine ⟨?_, rfl, hc, ?_⟩
  · simp [State.atOf, List.getElem?_concat_length]
  · simpa using Nat.ne_of_lt hsrc

/-- Witness for `C3_derive_reuses_ctor`: slicing the concrete augmented
array `exA` (identity 1, constructor 1 owned by 1). -/
theorem C3_witness :
    exB.2.atOf exB.1 = some 1 ∧
    exB.2.ctors = exA.2.ctors ∧
    exB.2.ctors[1]? = some ⟨exA.1⟩ ∧
    exA.1 ≠ exB.1 :=
  C3_derive_reuses_ctor exA.2 exA.1 (fun d => d.take 2) 1 (by decide) (by decide)

/-- **C4 (counterexample).** The claim quantifies over *every* Augmented
Array, but fails for derived ones: the offset slice `exD` (identity 2,
buffer `[2, 3]`, `at` constructor owned by the source array 1) has
`exD.at[0].set 99` succeed while mutating the *source's* buffer
(`[1, 2, 3]` becomes `[99, 2, 3]`); afterwards `exD[0]` is still `2`,
not the assigned `99`, even though key `0` is valid for `exD` and the
value broadcastable. -/
theorem C4_counterexample :
    atSet exD.2 exD.1 (Key.idx 0) 99 = some (exD.2.setData 1 [99, 2, 3]) ∧
    ((exD.2.setData 1 [99, 2, 3]).objs[exD.1]?).bind
      (fun o => npGetItem o.data (Key.idx 0)) = some 2 ∧
    (2 : Int) ≠ 99 := by decide

/-- **C4 (amended).** For a *self-owned* Augmented Array `a` — one whose `at`
constructor's owner is `a` itself, as every freshly constructed array is — a
key valid for its buffer and any value, `a.at[k].set v` performs exactly the
baseline in-place indexed assignment on `a`'s buffer (returning no value —
the result is only the updated store), and afterwards reading `a` at `k`
yields `v`.  (For a derived array whose reused `at` still references its
source, the assignment lands on the source instead: see the
counterexample.) -/
theorem C4_at_set (s : State) (a c : Nat) (o : Obj) (k : Key) (v : Int)
    (d' : List Int)
    (h1 : s.atOf a = some c) (h2 : s.ctors[c]? = some ⟨a⟩)
    (h3 : s.objs[a]? = some o) (h4 : npSetItem o.data k v = some d') :
    atSet s a k v = some (s.setData a d') ∧
    ((s.setData a d').objs[a]?).map (·.data) = some d' ∧
    npGetItem d' k = some v := by
  refine ⟨?_, ?_, npGetItem_npSetItem h4⟩
  · simp [atSet, h1, h2, _AtConstructor.getitem, _AtOp.set, h3, h4]
  · have ha : a < s.objs.length := (List.getElem?_eq_some.mp h3).1
    simp [State.setData, h3, List.getElem?_set_self (by simpa using ha)]

/-- Witness for `C4_at_set`: on the augmented array built from
`[1, 2, 3, 4]`, `.at[1].set 10` yields buffer `[1, 10, 3, 4]`. -/
theorem C4_witness :
    atSet exC.2 1 (Key.idx 1) 10 = some (exC.2.setData 1 [1, 10, 3, 4]) ∧
    ((exC.2.setData 1 [1, 10, 3, 4]).objs[1]?).map (·.data) = some [1, 10, 3, 4] ∧
    npGetItem [1, 10, 3, 4] (Key.idx 1) = some 10 :=
  C4_at_set exC.2 1 1 ⟨[1, 2, 3, 4], some 1⟩ (Key.idx 1) 10 [1, 10, 3, 4]
    (by decide) (by decide) (by decide) (by decide)

/-- **C5 (counterexample).** The claim fails for derived Augmented Arrays:
on the offset slice `exD`, `old = exD[0] = 2` before the call, yet
`exD.at[0].add 10` increments the *source's* buffer (its position 0 holds
`1`, so the source becomes `[11, 2, 3]`), and afterwards `exD[0]` is still
`2`, not `old + 10 = 12`. -/
theorem C5_counterexample :
    atAdd exD.2 exD.1 (Key.idx 0) 10 = some (exD.2.setData 1 [11, 2, 3]) ∧
    (exD.2.objs[exD.1]?).bind (fun o => npGetItem o.data (Key.idx 0)) = some 2 ∧
    ((exD.2.setData 1 [11, 2, 3]).objs[exD.1]?).bind
      (fun o => npGetItem o.data (Key.idx 0)) = some 2 ∧
    (2 : Int) ≠ 2 + 10 := by decide

/-- **C5 (amended).** For a *self-owned* Augmented Array `a` (its `at`
constructor's owner is `a` itself), a key valid for its buffer and any
value, `a.at[k].add v` reads the current value `old` at `k`, writes back
`old + v` in place, and afterwards reading `a` at `k` yields `old + v`.
(For a derived array whose reused `at` still references its source, the
increment is applied to the source instead: see the counterexample.) -/
theorem C5_at_add (s : State) (a c : Nat) (o : Obj) (k : Key) (v old : Int)
    (d' : List Int)
    (h1 : s.atOf a = some c) (h2 : s.ctors[c]? = some ⟨a⟩)
    (h3 : s.objs[a]? = some o) (h4 : npGetItem o.data k = some old)
    (h5 : npSetItem o.data k (old + v) = some d') :
    atAdd s a k v = some (s.setData a d') ∧
    npGetItem d' k = some (old + v) := by
  refine ⟨?_, npGetItem_npSetItem h5⟩
  simp [atAdd, h1, h2, _AtConstructor.getitem, _AtOp.add, h3, h4, h5]

/-- Witness for `C5_at_add`: on the augmented array built from
`[1, 2, 3, 4]`, `.at[2].add 5` turns the stored `3` into `3 + 5`. -/
theorem C5_witness :
    atAdd exC.2 1 (Key.idx 2) 5 = some (exC.2.setData 1 [1, 2, 8, 4]) ∧
    npGetItem [1, 2, 8, 4] (Key.idx 2) = some (3 + 5) :=
  C5_at_add exC.2 1 1 ⟨[1, 2, 3, 4], some 1⟩ (Key.idx 2) 5 3 [1, 2, 8, 4]
    (by decide) (by decide) (by decide) (by decide) (by decide)

/-- Helper: whenever `_AtOp.set` or `_AtOp.add` succeeds on the operation's
owner `a` with integer key `i`, the only change to the store is `a`'s buffer
at the position `i` resolves to: the constructor store is untouched, every
other object is untouched, `a`'s `at` attribute and buffer length are
untouched, and every buffer position other than the resolved one keeps its
previous contents. -/
theorem atOp_frame (s : State) (a : Nat) (o : Obj) (i : Int) (v : Int) (s' : State)
    (ho : s.objs[a]? = some o)
    (hrun : _AtOp.set ⟨a, Key.idx i⟩ v s = some s' ∨
            _AtOp.add ⟨a, Key.idx i⟩ v s = some s') :
    s'.ctors = s.ctors ∧
    (∀ b, b ≠ a → s'.objs[b]? = s.objs[b]?) ∧
    (s'.objs[a]?).map (·.at_) = some o.at_ ∧
    (s'.objs[a]?).map (fun o' => o'.data.length) = some o.data.length ∧
    (∀ j : Nat, resolveIdx o.data.length i ≠ some j →
      ((s'.objs[a]?).bind (fun o' => o'.data[j]?)) = o.data[j]?) := by
  rcases hrun with hrun | hrun
  · simp only [_AtOp.set, ho] at hrun
    cases hset : npSetItem o.data (Key.idx i) v with
    | none => rw [hset] at hrun; exact absurd hrun (by simp)
    | some d' =>
      rw [hset] at hrun
      simp only [Option.some.injEq] at hrun
      subst hrun
      exact setData_frame s a o i v d' ho hset
  · simp only [_AtOp.add, ho] at hrun
    cases hget : npGetItem o.data (Key.idx i) with
    | none => rw [hget] at hrun; exact absurd hrun (by simp)
    | some cur =>
      simp only [hget] at hrun
      cases hset : npSetItem o.data (Key.idx i) (cur + v) with
      | none => rw [hset] at hrun; exact absurd hrun (by simp)
      | some d' =>
        rw [hset] at hrun
        simp only [Option.some.injEq] at hrun
        subst hrun
        exact setData_frame s a o i (cur + v) d' ho hset

/-- **C6 (counterexample).** The claim says `A.at[k].set v` has no observable
effect other than the in-place mutation of `A` at `k`, for *every* Augmented
Array `A`.  On the derived offset slice `exD` (identity 2), `exD.at[0].set 99`
instead alters a *different* stored object — the source array (identity 1),
whose buffer changes from `[1, 2, 3]` to `[99, 2, 3]` — while `exD` itself
is left completely unchanged. -/
theorem C6_counterexample :
    atSet exD.2 exD.1 (Key.idx 0) 99 = some (exD.2.setData 1 [99, 2, 3]) ∧
    (exD.2.objs[1]?).map (fun o => o.data) = some [1, 2, 3] ∧
    ((exD.2.setData 1 [99, 2, 3]).objs[1]?).map (fun o => o.data) =
      some [99, 2, 3] ∧
    (exD.2.setData 1 [99, 2, 3]).objs[exD.1]? = exD.2.objs[exD.1]? ∧
    exD.1 ≠ 1 := by decide

/-- **C6 (amended).** For a *self-owned* Augmented Array `a` (its `at`
constructor's owner is `a` itself), whenever `a.at[i].set v` or
`a.at[i].add v` succeeds, the only change anywhere in the store is `a`'s
buffer at the position `i` resolves to: the constructor store is untouched,
every other object is untouched, `a`'s `at` attribute and buffer length are
untouched, and every buffer position other than the resolved one keeps its
previous contents.  (For a derived array whose reused `at` references its
source, the mutation lands on the source object instead: see the
counterexample.) -/
theorem C6_frame_at (s : State) (a c : Nat) (o : Obj) (i : Int) (v : Int)
    (s' : State)
    (h1 : s.atOf a = some c) (h2 : s.ctors[c]? = some ⟨a⟩)
    (ho : s.objs[a]? = some o)
    (hrun : atSet s a (Key.idx i) v = some s' ∨
            atAdd s a (Key.idx i) v = some s') :
    s'.ctors = s.ctors ∧
    (∀ b, b ≠ a → s'.objs[b]? = s.objs[b]?) ∧
    (s'.objs[a]?).map (·.at_) = some o.at_ ∧
    (s'.objs[a]?).map (fun o' => o'.data.length) = some o.data.length ∧
    (∀ j : Nat, resolveIdx o.data.length i ≠ some j →
      ((s'.objs[a]?).bind (fun o' => o'.data[j]?)) = o.data[j]?) := by
  apply atOp_frame s a o i v s' ho
  rcases hrun with hrun | hrun
  · left
    simpa [atSet, h1, h2, _AtConstructor.getitem] using hrun
  · right
    simpa [atAdd, h1, h2, _AtConstructor.getitem] using hrun

/-- Witness for `C6_frame_at`: after `.at[1].set 10` on the self-owned
augmented array built from `[1, 2, 3, 4]`, the constructor store, the other
stored object and buffer position 0 are unchanged. -/
theorem C6_witness :
    exC_set.ctors = exC.2.ctors ∧
    exC_set.objs[0]? = exC.2.objs[0]? ∧
    ((exC_set.objs[1]?).bind (fun o' => o'.data[0]?)) = some 1 := by
  have h := C6_frame_at exC.2 1 1 ⟨[1, 2, 3, 4], some 1⟩ 1 10 exC_set
    (by decide) (by decide) (by decide) (Or.inl (by decide))
  refine ⟨h.1, h.2.1 0 (by decide), ?_⟩
  rw [h.2.2.2.2 0 (by decide)]
  decide

/-- **C7.** The module-level `array` constructor wraps input data `d` into an
object whose buffer contents (and hence shape) equal the baseline array built
from `d`: the stored data is exactly `np.asarray d`, which coincides with the
spec-modelled `baseline_array_of d`. -/
theorem C7_wrap_refines_baseline (d : List Int) (s : State) :
    ((array_new d s).2.objs[(array_new d s).1]?).map (·.data) =
      some (baseline_array_of d) ∧
    ((array_new d s).2.objs[(array_new d s).1]?).map (fun o => o.data.length) =
      some (baseline_array_of d).length ∧
    baseline_array_of d = np_asarray d := by
  simp only [array_new_spec]
  refine ⟨?_, ?_, rfl⟩
  · rw [getElem?_concat_pair_right]
    rfl
  · rw [getElem?_concat_pair_right]
    rfl

/-- **C8.** `_AtConstructor.__getitem__` is a pure total factory: for any key
object whatsoever it returns exactly the operation holding `(owner, key)`
verbatim, touching no store and performing no validation; an invalid key only
errors later, when `set`/`add` is applied, and that failure is exactly the
baseline library's own indexed-assignment (resp. indexed-read) failure. -/
theorem C8_getitem_defers_errors (ctor : _AtConstructor) (k : Key) :
    ctor.getitem k = ⟨ctor.owner, k⟩ ∧
    (∀ (s : State) (o : Obj) (v : Int), s.objs[ctor.owner]? = some o →
      (((ctor.getitem k).set v s = none ↔ npSetItem o.data k v = none) ∧
       ((ctor.getitem k).add v s = none ↔ npGetItem o.data k = none))) := by
  refine ⟨rfl, fun s o v ho => ⟨?_, ?_⟩⟩
  · simp only [_AtConstructor.getitem, _AtOp.set, ho]
    cases h : npSetItem o.data k v <;> simp [h]
  · simp only [_AtConstructor.getitem, _AtOp.add, ho]
    cases h : npGetItem o.data k with
    | none => simp
    | some cur =>
      obtain ⟨d', hd'⟩ := npSetItem_isSome_of_getItem h (cur + v)
      simp [h, hd']

/-- Witness for `C8_getitem_defers_errors`: subscription with the
out-of-bounds key `99` succeeds and retains the key verbatim; applying `set`
then fails exactly when the baseline assignment fails. -/
theorem C8_witness :
    (_AtConstructor.mk 1).getitem (Key.idx 99) = ⟨1, Key.idx 99⟩ ∧
    (((_AtConstructor.mk 1).getitem (Key.idx 99)).set 5 exC.2 = none ↔
      npSetItem [1, 2, 3, 4] (Key.idx 99) 5 = none) := by
  have h := C8_getitem_defers_errors ⟨1⟩ (Key.idx 99)
  exact ⟨h.1, (h.2 exC.2 ⟨[1, 2, 3, 4], some 1⟩ 5 (by decide)).1⟩

/-- **C9.** For any name not in the module's own dict, module attribute
access returns exactly what the baseline namespace exposes under that name;
when the baseline namespace lacks it too, the result is exactly the baseline
lookup's own attribute-not-found error, propagated unwrapped. -/
theorem C9_forwarding (localDict np_ns : String → Option Nat) (attr : String)
    (hlocal : localDict attr = none) :
    (∀ v, np_ns attr = some v →
      module_getattr localDict np_ns attr = Except.ok v) ∧
    (np_ns attr = none →
      module_getattr localDict np_ns attr = jax_shim_getattr np_ns attr ∧
      module_getattr localDict np_ns attr =
        Except.error ("AttributeError: module numpy has no attribute " ++ attr)) := by
  refine ⟨fun v hv => ?_, fun hn => ⟨?_, ?_⟩⟩ <;>
    simp [module_getattr, jax_shim_getattr, hlocal, *]

/-- Witness for `C9_forwarding`: with the concrete module dict `exLocal` and
baseline namespace `exNp`, the forwarded name `sin` resolves to the baseline
object and the absent name `cos` produces the baseline attribute error. -/
theorem C9_witness :
    module_getattr exLocal exNp "sin" = Except.ok 7 ∧
    module_getattr exLocal exNp "cos" =
      Except.error ("AttributeError: module numpy has no attribute " ++ "cos") :=
  ⟨(C9_forwarding exLocal exNp "sin" (by decide)).1 7 (by decide),
   ((C9_forwarding exLocal exNp "cos" (by decide)).2 (by decide)).2⟩

/-- **C10.** On the explicit-construction path, the view step triggers the
derivation hook, which attaches a constructor owned by the intermediate plain
baseline array (the first identity returned by `array_new_view_step`); the
constructor body then unconditionally overwrites `at` with a fresh
constructor owned by the new augmented object itself, so the finished
instance is self-owned regardless of what the hook did. -/
theorem C10_explicit_path_self_owned (d : List Int) (s : State) :
    (array_new_view_step d s).2.2.atOf (array_new_view_step d s).2.1 =
      some s.ctors.length ∧
    (array_new_view_step d s).2.2.ctors[s.ctors.length]? =
      some ⟨(array_new_view_step d s).1⟩ ∧
    (array_new_view_step d s).1 ≠ (array_new_view_step d s).2.1 ∧
    (array_new d s).2.atOwner (array_new d s).1 = some (array_new d s).1 ∧
    (array_new d s).1 = (array_new_view_step d s).2.1 := by
  simp only [array_new_view_step_spec, array_new_spec]
  refine ⟨?_, ?_, by omega, ?_, by trivial⟩
  · simp only [State.atOf]
    rw [getElem?_concat_pair_right]
    rfl
  · rw [List.getElem?_concat_length]
  · exact atOwner_of_concat_pair s d

end JaxShim
